import Mathlib

/-!
Shallow embedding of `src/main.py` (the ytubeDDD youtube-downloader service):
the filename sanitizer `get_safe_filename`, the sliding-window rate limiter
`check_rate_limit` with its module-level `download_requests` map, the retention
sweeper `cleanup_old_files`, and the `/download` endpoint `download_video`.
Times are modelled as integers (Python `datetime` arithmetic has no overflow);
the external collaborator (yt-dlp) is a parameter of the pipeline.
-/

namespace YtubeDDD

/-! ### FilenameSanitizer (`get_safe_filename`, main.py lines 83-90) -/

/-- The literal allowed-character set from line 86:
`"abcdefghijklmnopqrstuvwxyzABCDEFGHIJKLMNOPQRSTUVWXYZ0123456789-_. "`. -/
def isSafeChar (c : Char) : Bool :=
  (('a' ≤ c && c ≤ 'z') || ('A' ≤ c && c ≤ 'Z') || ('0' ≤ c && c ≤ '9')
    || c = '-' || c = '_' || c = '.' || c = ' ')

/-- Line 87: `''.join(c if c in safe_chars else '_' for c in title)`. -/
def replaceUnsafe (cs : List Char) : List Char :=
  cs.map (fun c => if isSafeChar c then c else '_')

mutual
/-- Python `' '.join(s.split())` on a string whose only whitespace character is
the space (true of every output of `replaceUnsafe`, since every other
whitespace character is outside the allowed set and replaced by an
underscore): drop leading spaces, and between words keep exactly one space,
with no trailing space.  `collapse` is the mode "before a word". -/
def collapse : List Char → List Char
  | [] => []
  | c :: cs => if c = ' ' then collapse cs else c :: collapseIn cs

/-- `collapseIn` is the mode "inside a word": a run of spaces either separates
two words (one space is kept) or trails (nothing is kept). -/
def collapseIn : List Char → List Char
  | [] => []
  | c :: cs =>
    if c = ' ' then
      match collapse cs with
      | [] => []
      | d :: ds => ' ' :: d :: ds
    else c :: collapseIn cs
end

/-- Lines 83-90 over explicit character lists: replace disallowed characters
with an underscore, collapse whitespace (`' '.join(s.split())`), truncate to
100 characters (`[:100]`). -/
def sanitizeChars (cs : List Char) : List Char :=
  (collapse (replaceUnsafe cs)).take 100

/-- `get_safe_filename(title)` (lines 83-90). -/
def get_safe_filename (title : String) : String :=
  String.mk (sanitizeChars title.data)

/-- Python `s.startswith(pre)` over explicit character lists (structural, so
it evaluates inside the kernel): `beginsWith pre s` holds when `pre` is a
prefix of `s`. -/
def beginsWith : List Char → List Char → Bool
  | [], _ => true
  | _ :: _, [] => false
  | c :: cs, d :: ds => c = d && beginsWith cs ds

/-- Python `s.startswith(pre)` on strings. -/
def pyStartsWith (s pre : String) : Bool :=
  beginsWith pre.data s.data

/-! ### RateLimiter (`check_rate_limit`, main.py lines 61-81)

The module-level dict `download_requests` is an association list from client
identity to the list of recorded request timestamps, in insertion order.
Timestamps are integers (a fixed time unit); `RATE_LIMIT_WINDOW_MINUTES`
becomes the window length `W` in that unit and `MAX_REQUESTS_PER_IP` is `N`. -/

/-- The `download_requests` dict: keys are client identities. -/
abbrev RateState := List (String × List Int)

/-- `download_requests.get(client_ip, [])`. -/
def lookupD (st : RateState) (k : String) : List Int :=
  match List.find? (fun p => p.1 = k) st with
  | some p => p.2
  | none => []

/-- Python dict `in` test. -/
def containsKey (st : RateState) (k : String) : Bool :=
  List.any st (fun p => p.1 = k)

/-- `download_requests[client_ip] = v`: overwrite in place if the key exists,
else append a new entry (Python dicts keep insertion order). -/
def setKey (st : RateState) (k : String) (v : List Int) : RateState :=
  if containsKey st k then
    st.map (fun p => if p.1 = k then (k, v) else p)
  else st ++ [(k, v)]

/-- `check_rate_limit(client_ip)` (lines 61-81), with `now` passed explicitly
for `datetime.now()`. Lines 66-70 prune the client's list to the timestamps
strictly newer than `now - W` and store the pruned list back; line 73 rejects
when the pruned list already has `N` entries; lines 76-79 otherwise append
`now` (the `client_ip not in download_requests` guard on line 77 is vacuous
after the line-67 assignment, so the effect is a plain append). Returns the
boolean together with the updated `download_requests`. -/
def check_rate_limit (N : Nat) (W : Int) (client : String) (now : Int)
    (st : RateState) : Bool × RateState :=
  let pruned := (lookupD st client).filter (fun t => decide (now - W < t))
  let st1 := setKey st client pruned
  if N ≤ pruned.length then (false, st1)
  else (true, setKey st1 client (pruned ++ [now]))

/-- The effect of one `check_rate_limit` call on a single client's list,
used for trace reasoning: prune to the window, then append on admission. -/
def admit1 (N : Nat) (W : Int) (now : Int) (l : List Int) : Bool × List Int :=
  let pruned := l.filter (fun t => decide (now - W < t))
  if N ≤ pruned.length then (false, pruned)
  else (true, pruned ++ [now])

/-- Run a sequence of `check_rate_limit` calls for one client at the given
times; returns the final stored list and the list of admitted times. -/
def runAdmit (N : Nat) (W : Int) : List Int → List Int → List Int × List Int
  | [], l => (l, [])
  | t :: ts, l =>
    let r := admit1 N W t l
    let rest := runAdmit N W ts r.2
    (rest.1, (if r.1 then [t] else []) ++ rest.2)

/-! ### RetentionSweeper (`cleanup_old_files`, main.py lines 29-48) -/

/-- A direct entry of the storage directory: its base name, whether
`os.path.isfile` holds (regular file), and its `os.path.getctime`. -/
structure FsFile where
  name : String
  isFile : Bool
  ctime : Int
  deriving DecidableEq, Repr

/-- `glob.glob(os.path.join(DOWNLOAD_DIR, "*"))`: the directory's direct
entries whose names do not begin with a dot (glob's `*` never matches a
leading dot). -/
def globStar (d : List FsFile) : List FsFile :=
  d.filter (fun f => !pyStartsWith f.name ".")

/-- A file the sweeper removes at time `now` with retention age `maxAge`:
matched by the glob, a regular file, and created strictly before
`cutoff_time = now - maxAge` (lines 38-43). -/
def sweptAt (now maxAge : Int) (f : FsFile) : Bool :=
  !pyStartsWith f.name "." && f.isFile && decide (f.ctime < now - maxAge)

/-- `cleanup_old_files()` (lines 29-48): `none` models a missing storage
directory, in which case the cycle returns at line 33 without touching
anything; otherwise every swept file is removed and every other entry kept. -/
def cleanup_old_files (now maxAge : Int) :
    Option (List FsFile) → Option (List FsFile)
  | none => none
  | some d => some (d.filter (fun f => !sweptAt now maxAge f))

/-! ### DownloadOrchestrator (`download_video`, main.py lines 150-258) -/

/-- The probe result of `ydl.extract_info(url, download=False)` (line 189).
`durationField` models the JSON `duration` entry: `none` when the key is
missing, `some none` when its value is `null`, `some (some n)` otherwise. -/
structure ProbeInfo where
  durationField : Option (Option Int)
  title : String
  uploader : String

/-- Line 197, `info.get('duration', 0)`: a missing key defaults to the
integer 0; a `null` value stays `None`. -/
def getDuration (info : ProbeInfo) : Option Int :=
  match info.durationField with
  | none => some 0
  | some v => v

/-- Line 204, `if duration and duration > MAX_DURATION_SECONDS`: `None` and
`0` are falsy, so the gate rejects exactly a present, non-zero duration that
strictly exceeds the ceiling. -/
def durationRejects (d : Option Int) (maxDur : Int) : Bool :=
  match d with
  | none => false
  | some n => !(n = 0) && decide (maxDur < n)

/-- The JSON bodies `download_video` can return, one constructor per
`jsonify` site. Error bodies are constant except `durationExceeded`, which
echoes the configured ceiling and the observed duration (lines 206-210),
and `success`, which carries the lines 240-248 fields. -/
inductive DlResponse where
  | rateLimited
  | invalidJson
  | noUrl
  | invalidUrlFormat
  | probeFailed
  | durationExceeded (maxDur : Int) (observed : Option Int)
  | fetchFailed
  | success (title uploader filename : String) (duration : Option Int)
      (fileSizeBytes : Option Int)
  deriving DecidableEq, Repr

/-- The HTTP status each `jsonify` site pairs with its body. -/
def statusOf : DlResponse → Nat
  | .rateLimited => 429
  | .invalidJson => 400
  | .noUrl => 400
  | .invalidUrlFormat => 400
  | .probeFailed => 400
  | .durationExceeded _ _ => 400
  | .fetchFailed => 500
  | .success _ _ _ _ _ => 200

/-- `os.path.basename`: the part of the path after the last slash. -/
def basename (p : String) : String :=
  String.mk (p.data.foldl (fun acc c => if c = '/' then [] else acc ++ [c]) [])

/-- Configuration of the endpoint: `MAX_REQUESTS_PER_IP`,
`RATE_LIMIT_WINDOW_MINUTES` (as a window length in time units) and
`MAX_DURATION_SECONDS`. -/
structure Config where
  maxRequests : Nat
  window : Int
  maxDuration : Int

/-- The request body: `none` when `request.get_json()` is falsy (line 162),
otherwise the value of `data.get("url")` (`none` when absent or `null`). -/
abbrev ReqBody := Option (Option String)

/-- `download_video()` (lines 150-258) as a function of the request and of
the two external-collaborator outcomes: `probe` is the metadata-only
`extract_info(url, download=False)` call, `fetch url safeTitle` is the
downloading call made with the `outtmpl` derived from the sanitized title
(returning the resolved filename), and `fileSize p` is
`os.path.getsize(p)` guarded by `os.path.exists(p)` (`none` when the file
does not exist, line 247). Returns the JSON body and the updated
`download_requests` map. The gates run in source order: rate limit first
(line 154), then JSON / URL-presence / URL-scheme checks (lines 161-172),
then probe, duration gate, sanitization, fetch, and response assembly. -/
def download_video (cfg : Config) (client : String) (now : Int)
    (st : RateState) (body : ReqBody)
    (probe : Except String ProbeInfo)
    (fetch : String → String → Except String String)
    (fileSize : String → Option Int) : DlResponse × RateState :=
  let rl := check_rate_limit cfg.maxRequests cfg.window client now st
  if !rl.1 then (.rateLimited, rl.2)
  else
    match body with
    | none => (.invalidJson, rl.2)
    | some urlField =>
      match urlField with
      | none => (.noUrl, rl.2)
      | some url =>
        if url = "" then (.noUrl, rl.2)
        else if !(pyStartsWith url "http://" || pyStartsWith url "https://") then
          (.invalidUrlFormat, rl.2)
        else
          match probe with
          | .error _ => (.probeFailed, rl.2)
          | .ok info =>
            let duration := getDuration info
            if durationRejects duration cfg.maxDuration then
              (.durationExceeded cfg.maxDuration duration, rl.2)
            else
              let safeTitle := get_safe_filename info.title
              match fetch url safeTitle with
              | .error _ => (.fetchFailed, rl.2)
              | .ok filename =>
                (.success info.title info.uploader (basename filename)
                  duration (fileSize filename), rl.2)

/-! ### Helper lemmas on the `download_requests` association list -/

theorem keyPred_comp (k : String) (v : List Int) :
    (fun p : String × List Int => decide (p.1 = k)) ∘
      (fun p : String × List Int => if p.1 = k then (k, v) else p) =
    fun p : String × List Int => decide (p.1 = k) := by
  funext p
  by_cases hp : p.1 = k <;> simp [hp, Function.comp]

theorem find?_key_eq_none (st : RateState) (k : String)
    (hc : containsKey st k = false) :
    List.find? (fun p : String × List Int => decide (p.1 = k)) st = none := by
  rw [List.find?_eq_none]
  intro p hp hpk
  have : containsKey st k = true := by
    simp only [containsKey, List.any_eq_true]
    exact ⟨p, hp, hpk⟩
  simp [this] at hc

theorem lookupD_setKey_self (st : RateState) (k : String) (v : List Int) :
    lookupD (setKey st k v) k = v := by
  unfold setKey
  by_cases hc : containsKey st k
  · simp only [hc, if_true, lookupD, List.find?_map, keyPred_comp]
    have hex : ∃ p, p ∈ st ∧ decide (p.1 = k) = true := by
      simpa [containsKey, List.any_eq_true] using hc
    rcases hfind : List.find? (fun p : String × List Int => decide (p.1 = k)) st with
      _ | p0
    · rw [List.find?_eq_none] at hfind
      rcases hex with ⟨p, hp, hpk⟩
      exact absurd hpk (by simpa using hfind p hp)
    · have hp0 : p0.1 = k := by simpa using List.find?_some hfind
      simp [hp0]
  · have hc' : containsKey st k = false := by simpa using hc
    simp only [hc', Bool.false_eq_true, if_false, lookupD, List.find?_append,
      find?_key_eq_none st k hc']
    simp

theorem containsKey_setKey_self (st : RateState) (k : String) (v : List Int) :
    containsKey (setKey st k v) k = true := by
  by_cases hc : containsKey st k
  · have hc2 : (List.any st fun p : String × List Int => decide (p.1 = k)) = true := hc
    simp only [setKey, containsKey, hc2, if_true, List.any_map, keyPred_comp]
  · have hc' : containsKey st k = false := by simpa using hc
    have hc2 : (List.any st fun p : String × List Int => decide (p.1 = k)) = false := hc'
    simp [setKey, containsKey, hc2]

theorem setKey_setKey (st : RateState) (k : String) (v w : List Int) :
    setKey (setKey st k v) k w = setKey st k w := by
  have hck := containsKey_setKey_self st k v
  by_cases hc : containsKey st k
  · simp only [setKey, hc, if_true] at hck ⊢
    rw [if_pos hck, List.map_map]
    congr 1
    funext p
    by_cases hp : p.1 = k <;> simp [hp, Function.comp]
  · have hc' : containsKey st k = false := by simpa using hc
    simp only [setKey, hc', Bool.false_eq_true, if_false] at hck ⊢
    rw [if_pos hck, List.map_append]
    have h1 : (st.map fun p => if p.1 = k then (k, w) else p) = st := by
      conv_rhs => rw [← List.map_id st]
      apply List.map_congr_left
      intro p hp
      have hpk : ¬ p.1 = k := by
        intro h
        have : containsKey st k = true := by
          simp only [containsKey, List.any_eq_true]
          exact ⟨p, hp, by simpa using h⟩
        simp [this] at hc'
      simp [hpk]
    simp [h1]

/-! ### Pipeline reduction lemmas -/

/-- A URL that passes the scheme check is not empty. -/
theorem valid_scheme_ne_empty (url : String)
    (h : (pyStartsWith url "http://" || pyStartsWith url "https://") = true) :
    ¬ url = "" := by
  intro he
  subst he
  revert h
  decide

/-- When the rate limiter rejects, the endpoint returns the 429 body at once,
whatever the request body and collaborator outcomes are. -/
theorem download_video_rateLimited (cfg : Config) (client : String) (now : Int)
    (st : RateState) (body : ReqBody) (probe : Except String ProbeInfo)
    (fetch : String → String → Except String String)
    (fileSize : String → Option Int)
    (h : (check_rate_limit cfg.maxRequests cfg.window client now st).1 = false) :
    download_video cfg client now st body probe fetch fileSize =
      (.rateLimited, (check_rate_limit cfg.maxRequests cfg.window client now st).2) := by
  simp [download_video, h]

/-- Once the rate limiter admits and the URL passes the shape checks, the
endpoint's behaviour is determined by the probe, the duration gate and the
fetch, and its state component is the limiter's updated map. -/
theorem download_video_run (cfg : Config) (client : String) (now : Int)
    (st : RateState) (url : String) (probe : Except String ProbeInfo)
    (fetch : String → String → Except String String)
    (fileSize : String → Option Int)
    (hadm : (check_rate_limit cfg.maxRequests cfg.window client now st).1 = true)
    (hurl : (pyStartsWith url "http://" || pyStartsWith url "https://") = true) :
    download_video cfg client now st (some (some url)) probe fetch fileSize =
      (match probe with
       | .error _ => .probeFailed
       | .ok info =>
         if durationRejects (getDuration info) cfg.maxDuration then
           .durationExceeded cfg.maxDuration (getDuration info)
         else
           match fetch url (get_safe_filename info.title) with
           | .error _ => .fetchFailed
           | .ok filename =>
             .success info.title info.uploader (basename filename)
               (getDuration info) (fileSize filename),
       (check_rate_limit cfg.maxRequests cfg.window client now st).2) := by
  have hne : ¬ url = "" := valid_scheme_ne_empty url hurl
  cases probe with
  | error e => simp [download_video, hadm, hurl, hne]
  | ok info =>
    by_cases hdur : durationRejects (getDuration info) cfg.maxDuration
    · simp [download_video, hadm, hurl, hne, hdur]
    · cases hf : fetch url (get_safe_filename info.title) with
      | error e => simp [download_video, hadm, hurl, hne, hdur, hf]
      | ok filename => simp [download_video, hadm, hurl, hne, hdur, hf]

/-- The endpoint always stores back exactly the limiter's updated map,
whichever branch produced the response. -/
theorem download_video_state (cfg : Config) (client : String) (now : Int)
    (st : RateState) (body : ReqBody) (probe : Except String ProbeInfo)
    (fetch : String → String → Except String String)
    (fileSize : String → Option Int) :
    (download_video cfg client now st body probe fetch fileSize).2 =
      (check_rate_limit cfg.maxRequests cfg.window client now st).2 := by
  by_cases hrl : (check_rate_limit cfg.maxRequests cfg.window client now st).1
  · rcases body with _ | urlField
    · simp [download_video, hrl]
    · rcases urlField with _ | url
      · simp [download_video, hrl]
      · by_cases hemp : url = ""
        · simp [download_video, hrl, hemp]
        · by_cases hsch : (pyStartsWith url "http://" || pyStartsWith url "https://")
              = true
          · rw [download_video_run cfg client now st url probe fetch fileSize hrl hsch]
          · simp [download_video, hrl, hemp, hsch]
  · rw [download_video_rateLimited cfg client now st body probe fetch fileSize
      (by simpa using hrl)]

/-- The duration gate fires exactly on a present, non-zero duration strictly
above the ceiling. -/
theorem durationRejects_iff (d : Option Int) (maxDur : Int) :
    durationRejects d maxDur = true ↔
      ∃ n, d = some n ∧ n ≠ 0 ∧ n > maxDur := by
  cases d with
  | none => simp [durationRejects]
  | some n =>
    simp only [durationRejects, Bool.and_eq_true, decide_eq_true_eq,
      Bool.not_eq_true', Option.some.injEq]
    constructor
    · intro ⟨h1, h2⟩
      exact ⟨n, rfl, by simpa using h1, h2⟩
    · intro ⟨m, hm, h1, h2⟩
      cases hm
      exact ⟨by simpa using h1, h2⟩

/-! ### Sanitizer lemmas -/

/-- Whitespace collapsing is idempotent (in both modes): the output of
`collapse` has no leading, trailing or doubled spaces, so collapsing it
again changes nothing. -/
theorem collapse_idem_aux (cs : List Char) :
    collapse (collapse cs) = collapse cs ∧
    collapseIn (collapseIn cs) = collapseIn cs := by
  induction cs with
  | nil => simp [collapse, collapseIn]
  | cons c cs ih =>
    constructor
    · by_cases hc : c = ' '
      · simp only [collapse, if_pos hc]
        exact ih.1
      · simp only [collapse, if_neg hc]
        rw [ih.2]
    · by_cases hc : c = ' '
      · simp only [collapseIn, if_pos hc]
        cases hcol : collapse cs with
        | nil => simp [hcol, collapseIn]
        | cons d ds =>
          simp only [hcol]
          have hdd : collapse (d :: ds) = d :: ds := by
            rw [← hcol, ih.1, hcol]
          simp only [collapseIn, if_pos rfl, hdd]
          simp
      · simp only [collapseIn, if_neg hc]
        rw [ih.2]

/-- Every character of a collapsed list comes from the input or is a
space. -/
theorem collapse_mem_aux (cs : List Char) (c : Char) :
    (c ∈ collapse cs → c ∈ cs ∨ c = ' ') ∧
    (c ∈ collapseIn cs → c ∈ cs ∨ c = ' ') := by
  induction cs with
  | nil => simp [collapse, collapseIn]
  | cons a cs ih =>
    constructor
    · intro hmem
      by_cases ha : a = ' '
      · rw [collapse, if_pos ha] at hmem
        rcases ih.1 hmem with h | h
        · exact Or.inl (List.mem_cons_of_mem a h)
        · exact Or.inr h
      · rw [collapse, if_neg ha] at hmem
        rcases List.mem_cons.mp hmem with h | h
        · exact Or.inl (h ▸ List.mem_cons_self a cs)
        · rcases ih.2 h with h2 | h2
          · exact Or.inl (List.mem_cons_of_mem a h2)
          · exact Or.inr h2
    · intro hmem
      by_cases ha : a = ' '
      · rw [collapseIn, if_pos ha] at hmem
        cases hcol : collapse cs with
        | nil => rw [hcol] at hmem; simp at hmem
        | cons d ds =>
          rw [hcol] at hmem
          rcases List.mem_cons.mp hmem with h | h
          · exact Or.inr h
          · rcases ih.1 (hcol ▸ h) with h2 | h2
            · exact Or.inl (List.mem_cons_of_mem a h2)
            · exact Or.inr h2
      · rw [collapseIn, if_neg ha] at hmem
        rcases List.mem_cons.mp hmem with h | h
        · exact Or.inl (h ▸ List.mem_cons_self a cs)
        · rcases ih.2 h with h2 | h2
          · exact Or.inl (List.mem_cons_of_mem a h2)
          · exact Or.inr h2

/-- Every character after replacement is in the allowed set. -/
theorem replaceUnsafe_safe (cs : List Char) :
    ∀ c ∈ replaceUnsafe cs, isSafeChar c = true := by
  intro c hc
  rcases List.mem_map.mp hc with ⟨a, _, ha⟩
  by_cases hs : isSafeChar a
  · rw [if_pos hs] at ha
    exact ha ▸ hs
  · rw [if_neg hs] at ha
    rw [← ha]
    decide

/-- Replacement does nothing on an all-allowed list. -/
theorem replaceUnsafe_of_safe (cs : List Char)
    (h : ∀ c ∈ cs, isSafeChar c = true) : replaceUnsafe cs = cs := by
  unfold replaceUnsafe
  conv_rhs => rw [← List.map_id cs]
  apply List.map_congr_left
  intro a ha
  simp [h a ha]

/-- Every character of a sanitized list is in the allowed set. -/
theorem sanitizeChars_safe (cs : List Char) :
    ∀ c ∈ sanitizeChars cs, isSafeChar c = true := by
  intro c hc
  have hc2 := List.take_subset 100 _ hc
  rcases (collapse_mem_aux (replaceUnsafe cs) c).1 hc2 with h | h
  · exact replaceUnsafe_safe cs c h
  · rw [h]; decide

/-- Characters of a collapsed replaced list are all allowed. -/
theorem collapse_replaceUnsafe_safe (cs : List Char) :
    ∀ c ∈ collapse (replaceUnsafe cs), isSafeChar c = true := by
  intro c hc
  rcases (collapse_mem_aux (replaceUnsafe cs) c).1 hc with h | h
  · exact replaceUnsafe_safe cs c h
  · rw [h]; decide

/-- Sanitization is idempotent at the character-list level whenever the
collapsed form is short enough that the 100-character truncation does
nothing. -/
theorem sanitizeChars_idem (cs : List Char)
    (h : (collapse (replaceUnsafe cs)).length ≤ 100) :
    sanitizeChars (sanitizeChars cs) = sanitizeChars cs := by
  unfold sanitizeChars
  rw [List.take_of_length_le h,
    replaceUnsafe_of_safe _ (collapse_replaceUnsafe_safe cs),
    (collapse_idem_aux (replaceUnsafe cs)).1, List.take_of_length_le h]

/-! ### Rate-limiter lemmas -/

/-- The two branches of `check_rate_limit`, in terms of the claim's steps
(a)-(d): with `pruned` the stored timestamps strictly inside the window,
rejection stores `pruned` unchanged and admission stores `pruned ++ [now]`. -/
theorem check_rate_limit_branches (N : Nat) (W : Int) (c : String) (now : Int)
    (st : RateState) :
    (N ≤ ((lookupD st c).filter (fun t => decide (now - W < t))).length →
      check_rate_limit N W c now st =
        (false, setKey st c ((lookupD st c).filter (fun t => decide (now - W < t))))) ∧
    (((lookupD st c).filter (fun t => decide (now - W < t))).length < N →
      check_rate_limit N W c now st =
        (true, setKey st c
          ((lookupD st c).filter (fun t => decide (now - W < t)) ++ [now]))) := by
  constructor
  · intro h
    simp only [check_rate_limit, if_pos h]
  · intro h
    have h' : ¬ N ≤ ((lookupD st c).filter (fun t => decide (now - W < t))).length :=
      Nat.not_le.mpr h
    simp only [check_rate_limit, if_neg h', setKey_setKey]

/-- The per-client effect of one `check_rate_limit` call is `admit1` on that
client's stored list. -/
theorem check_rate_limit_eq_admit1 (N : Nat) (W : Int) (c : String) (now : Int)
    (st : RateState) :
    (check_rate_limit N W c now st).1 = (admit1 N W now (lookupD st c)).1 ∧
    lookupD (check_rate_limit N W c now st).2 c = (admit1 N W now (lookupD st c)).2 := by
  by_cases h : N ≤ ((lookupD st c).filter (fun t => decide (now - W < t))).length
  · rw [(check_rate_limit_branches N W c now st).1 h]
    simp [admit1, if_pos h, lookupD_setKey_self]
  · rw [(check_rate_limit_branches N W c now st).2 (Nat.not_le.mp h)]
    simp [admit1, if_neg h, lookupD_setKey_self]

/-- Number of timestamps of `l` inside the half-open window `(a, a + W]`. -/
def winCount (W a : Int) (l : List Int) : Nat :=
  l.countP (fun s => decide (a < s) && decide (s ≤ a + W))

/-- Strengthened induction for the sliding-window bound: running the limiter
over nondecreasing call times `times` (all at least `T`), starting from the
stored list obtained by pruning an admitted-history `A` (all at most `T`)
to the window ending at `T`, keeps every window's admission count at `N`
or below. -/
theorem runAdmit_window_bound (N : Nat) (W : Int) (hW : 0 < W) :
    ∀ (times : List Int) (A : List Int) (T : Int),
      times.Pairwise (· ≤ ·) → (∀ t ∈ times, T ≤ t) → (∀ s ∈ A, s ≤ T) →
      (∀ a, winCount W a A ≤ N) →
      ∀ a, winCount W a
        (A ++ (runAdmit N W times (A.filter (fun s => decide (T - W < s)))).2) ≤ N := by
  intro times
  induction times with
  | nil =>
    intro A T _ _ _ hbound a
    simpa [runAdmit, winCount] using hbound a
  | cons t ts ih =>
    intro A T hpw hT hA hbound a
    have hTt : T ≤ t := hT t (List.mem_cons_self t ts)
    have hprune : (A.filter (fun s => decide (T - W < s))).filter
        (fun s => decide (t - W < s)) = A.filter (fun s => decide (t - W < s)) := by
      rw [List.filter_filter]
      apply List.filter_congr
      intro s _
      by_cases hs : t - W < s
      · have : T - W < s := lt_of_le_of_lt (by omega) hs
        simp [hs, this]
      · simp [hs]
    rw [List.pairwise_cons] at hpw
    by_cases hrej : N ≤ (A.filter (fun s => decide (t - W < s))).length
    · have hstep : runAdmit N W (t :: ts) (A.filter (fun s => decide (T - W < s))) =
          runAdmit N W ts (A.filter (fun s => decide (t - W < s))) := by
        simp [runAdmit, admit1, hprune, hrej]
      rw [hstep]
      exact ih A t hpw.2 (fun x hx => hpw.1 x hx) (fun s hs => le_trans (hA s hs) hTt)
        hbound a
    · have hlt : (A.filter (fun s => decide (t - W < s))).length < N :=
        Nat.not_le.mp hrej
      have hstep : runAdmit N W (t :: ts) (A.filter (fun s => decide (T - W < s))) =
          ((runAdmit N W ts (A.filter (fun s => decide (t - W < s)) ++ [t])).1,
            t :: (runAdmit N W ts
              (A.filter (fun s => decide (t - W < s)) ++ [t])).2) := by
        simp [runAdmit, admit1, hprune, hrej]
      rw [hstep]
      have hAfilt : (A ++ [t]).filter (fun s => decide (t - W < s)) =
          A.filter (fun s => decide (t - W < s)) ++ [t] := by
        rw [List.filter_append]
        have htW : t - W < t := by omega
        simp [htW]
      have hbound' : ∀ b, winCount W b (A ++ [t]) ≤ N := by
        intro b
        rw [winCount, List.countP_append]
        by_cases hin : (decide (b < t) && decide (t ≤ b + W)) = true
        · have hbt : b < t ∧ t ≤ b + W := by
            simpa [Bool.and_eq_true, decide_eq_true_eq] using hin
          have h1 : (A.countP (fun s => decide (b < s) && decide (s ≤ b + W))) ≤
              (A.filter (fun s => decide (t - W < s))).length := by
            rw [List.countP_eq_length_filter]
            apply List.Sublist.length_le
            apply List.monotone_filter_right
            intro s hs
            simp only [Bool.and_eq_true, decide_eq_true_eq] at hs
            simp only [decide_eq_true_eq]
            omega
          have h2 : List.countP (fun s => decide (b < s) && decide (s ≤ b + W)) [t]
              ≤ 1 := by
            simp only [List.countP_cons, List.countP_nil]
            split <;> omega
          omega
        · have h2 : List.countP (fun s => decide (b < s) && decide (s ≤ b + W)) [t]
              = 0 := by
            simp only [List.countP_cons, List.countP_nil]
            simp [hin]
          rw [h2]
          simpa [winCount] using hbound b
      have hih := ih (A ++ [t]) t hpw.2 (fun x hx => hpw.1 x hx)
        (by
          intro s hs
          rcases List.mem_append.mp hs with h | h
          · exact le_trans (hA s h) hTt
          · simp only [List.mem_singleton] at h
            omega)
        hbound' a
      rw [hAfilt] at hih
      rw [winCount, List.countP_append, List.countP_append] at hih
      rw [winCount, List.countP_append, List.countP_cons]
      rw [List.countP_cons, List.countP_nil] at hih
      omega

/-- `setKey` never removes a key that is already present. -/
theorem containsKey_setKey_of (st : RateState) (k : String) (v : List Int)
    (x : String) (h : containsKey st x = true) :
    containsKey (setKey st k v) x = true := by
  by_cases hxk : x = k
  · subst hxk
    exact containsKey_setKey_self st x v
  · rcases (by simpa [containsKey, List.any_eq_true] using h :
        ∃ p, p ∈ st ∧ p.1 = x) with ⟨p, hp, hpx⟩
    unfold setKey
    by_cases hc : containsKey st k
    · rw [if_pos hc]
      simp only [containsKey, List.any_eq_true]
      refine ⟨(fun p => if p.1 = k then (k, v) else p) p, List.mem_map_of_mem _ hp, ?_⟩
      have hpk : ¬ p.1 = k := by rw [hpx]; exact hxk
      simp [hpk, hpx, hxk]
    · rw [if_neg hc]
      simp only [containsKey, List.any_append, Bool.or_eq_true, List.any_eq_true]
      exact Or.inl ⟨p, hp, by simp [hpx]⟩

/-- C3: the rate limiter follows the claimed per-call algorithm — (b) it
drops exactly the stored timestamps at or before `now - W`, (c) it rejects
without recording when the pruned count has reached `N`, (d) it otherwise
appends `now` and admits — its per-client effect on `download_requests` is
`admit1`, and consequently (for a positive window and nondecreasing call
times, starting from a fresh client) at most `N` admissions succeed within
any sliding window `(a, a + W]`; in particular an (N+1)-th request inside
the window hits clause (c) and is rejected. -/
theorem C3_sliding_window_rate_limit (N : Nat) (W : Int) (hW : 0 < W) :
    (∀ (st : RateState) (c : String) (now : Int),
      (∀ x, x ∈ (lookupD st c).filter (fun t => decide (now - W < t)) ↔
          x ∈ lookupD st c ∧ now - W < x) ∧
      (N ≤ ((lookupD st c).filter (fun t => decide (now - W < t))).length →
        check_rate_limit N W c now st =
          (false, setKey st c ((lookupD st c).filter (fun t => decide (now - W < t))))) ∧
      (((lookupD st c).filter (fun t => decide (now - W < t))).length < N →
        check_rate_limit N W c now st =
          (true, setKey st c
            ((lookupD st c).filter (fun t => decide (now - W < t)) ++ [now]))) ∧
      (check_rate_limit N W c now st).1 = (admit1 N W now (lookupD st c)).1 ∧
      lookupD (check_rate_limit N W c now st).2 c =
        (admit1 N W now (lookupD st c)).2) ∧
    (∀ (times : List Int), times.Pairwise (· ≤ ·) →
      ∀ a, winCount W a (runAdmit N W times []).2 ≤ N) := by
  constructor
  · intro st c now
    refine ⟨?_, (check_rate_limit_branches N W c now st).1,
      (check_rate_limit_branches N W c now st).2,
      (check_rate_limit_eq_admit1 N W c now st).1,
      (check_rate_limit_eq_admit1 N W c now st).2⟩
    intro x
    simp [List.mem_filter]
  · intro times hpw a
    cases times with
    | nil => simp [runAdmit, winCount]
    | cons t ts =>
      have h := runAdmit_window_bound N W hW (t :: ts) [] t hpw
        (by
          intro x hx
          rcases List.mem_cons.mp hx with h | h
          · omega
          · exact (List.pairwise_cons.mp hpw).1 x h)
        (by intro s hs; simp at hs)
        (by intro b; simp [winCount])
        a
      simpa [winCount] using h

/-- C3 witness: with `N = 2`, `W = 60`, the call trace `[10, 20, 30, 80]`
admits `[10, 20, 80]` (the third call inside the window is rejected), every
window holds at most 2 admissions, and a concrete `check_rate_limit` call
stores the pruned list plus the new timestamp. -/
theorem C3_sliding_window_rate_limit_witness :
    (0 : Int) < 60 ∧
    lookupD (check_rate_limit 2 60 "c" 100 [("c", [30, 90])]).2 "c" = [90, 100] ∧
    winCount 60 5 (runAdmit 2 60 [10, 20, 30, 80] []).2 ≤ 2 := by
  refine ⟨by decide, ?_, ?_⟩
  · have h := ((C3_sliding_window_rate_limit 2 60 (by decide)).1
      [("c", [30, 90])] "c" 100).2.2.2.2
    rw [h]
    decide
  · exact (C3_sliding_window_rate_limit 2 60 (by decide)).2 [10, 20, 30, 80]
      (by decide) 5

/-- C6: when `check_rate_limit` rejects, it does so exactly because the
post-pruning count has reached `N`, and the client's stored list afterwards
is the pruned list itself — the rejected request's timestamp `now` is not
recorded. -/
theorem C6_reject_not_recorded (N : Nat) (W : Int) (c : String) (now : Int)
    (st : RateState) :
    ((check_rate_limit N W c now st).1 = false ↔
      N ≤ ((lookupD st c).filter (fun t => decide (now - W < t))).length) ∧
    ((check_rate_limit N W c now st).1 = false →
      lookupD (check_rate_limit N W c now st).2 c =
        (lookupD st c).filter (fun t => decide (now - W < t))) := by
  by_cases hb : N ≤ ((lookupD st c).filter (fun t => decide (now - W < t))).length
  · rw [(check_rate_limit_branches N W c now st).1 hb]
    exact ⟨by simp [hb], fun _ => lookupD_setKey_self st c _⟩
  · rw [(check_rate_limit_branches N W c now st).2 (Nat.not_le.mp hb)]
    exact ⟨by simp [hb], by simp⟩

/-- C6 witness: with `N = 1`, `W = 60`, a client whose pruned history `[50]`
is already at the limit is rejected at time 60 and its stored list stays
`[50]`: the timestamp 60 is not recorded. -/
theorem C6_reject_not_recorded_witness :
    ((check_rate_limit 1 60 "c" 60 [("c", [50])]).1 = false) ∧
    lookupD (check_rate_limit 1 60 "c" 60 [("c", [50])]).2 "c" = [50] := by
  have h := C6_reject_not_recorded 1 60 "c" 60 [("c", [50])]
  have h1 : (check_rate_limit 1 60 "c" 60 [("c", [50])]).1 = false :=
    h.1.mpr (by decide)
  exact ⟨h1, by simpa using h.2 h1⟩

/-- C9: every `check_rate_limit` call mutates the shared map even when it
rejects — on rejection the client's stored list has been replaced by exactly
its timestamps strictly newer than `now - W` — after any call the map
contains an entry for the client (first contact included), and no later call
for any client ever removes an existing key. -/
theorem C9_always_mutates_and_keeps_key (N : Nat) (W : Int) (c : String)
    (now : Int) (st : RateState) :
    containsKey (check_rate_limit N W c now st).2 c = true ∧
    ((check_rate_limit N W c now st).1 = false →
      lookupD (check_rate_limit N W c now st).2 c =
        (lookupD st c).filter (fun t => decide (now - W < t))) ∧
    (∀ x, containsKey st x = true →
      containsKey (check_rate_limit N W c now st).2 x = true) := by
  by_cases hb : N ≤ ((lookupD st c).filter (fun t => decide (now - W < t))).length
  · rw [(check_rate_limit_branches N W c now st).1 hb]
    exact ⟨containsKey_setKey_self st c _, fun _ => lookupD_setKey_self st c _,
      fun x hx => containsKey_setKey_of st c _ x hx⟩
  · rw [(check_rate_limit_branches N W c now st).2 (Nat.not_le.mp hb)]
    exact ⟨containsKey_setKey_self st c _, by simp,
      fun x hx => containsKey_setKey_of st c _ x hx⟩

/-- C9 witness: a first-contact client gets a key even though nothing was
stored before; a rejected client's list is pruned in place; an existing
key survives a call for a different client. -/
theorem C9_always_mutates_and_keeps_key_witness :
    containsKey (check_rate_limit 10 60 "fresh" 5 []).2 "fresh" = true ∧
    lookupD (check_rate_limit 1 60 "c" 60 [("c", [-20, 50])]).2 "c" = [50] ∧
    containsKey (check_rate_limit 10 60 "other" 5 [("c", [1])]).2 "c" = true := by
  refine ⟨(C9_always_mutates_and_keeps_key 10 60 "fresh" 5 []).1, ?_, ?_⟩
  · have h := (C9_always_mutates_and_keeps_key 1 60 "c" 60 [("c", [-20, 50])]).2.1
      (by decide)
    simpa using h
  · exact (C9_always_mutates_and_keeps_key 10 60 "other" 5 [("c", [1])]).2.2 "c"
      (by decide)

/-- C2 counterexample: on the 101-character title of 99 `a`s, a space and a
`b`, the first sanitization truncates to 100 characters ending in a space,
and the second application trims that trailing space, so
`sanitize (sanitize s) ≠ sanitize s`. -/
theorem C2_sanitize_idempotent_cex :
    ¬ (get_safe_filename (get_safe_filename
        (String.mk (List.replicate 99 'a' ++ [' ', 'b']))) =
      get_safe_filename (String.mk (List.replicate 99 'a' ++ [' ', 'b']))) := by
  decide

/-- C2 (amended): `sanitize` is idempotent on every input whose
underscore-replaced, whitespace-collapsed form has at most 100 characters —
that is, whenever the final truncation does nothing (in particular on every
input of at most 100 characters). On longer inputs the cut at 100 characters
can leave a trailing space that a second application removes. -/
theorem C2_sanitize_idempotent_on_untruncated (s : String)
    (h : (collapse (replaceUnsafe s.data)).length ≤ 100) :
    get_safe_filename (get_safe_filename s) = get_safe_filename s :=
  congrArg String.mk (sanitizeChars_idem s.data h)

/-- C2 witness: the spec's own scenario title is untouched by truncation and
sanitizing it twice equals sanitizing it once. -/
theorem C2_sanitize_idempotent_on_untruncated_witness :
    (collapse (replaceUnsafe ("Test: Video!".data))).length ≤ 100 ∧
    get_safe_filename (get_safe_filename "Test: Video!") =
      get_safe_filename "Test: Video!" :=
  ⟨by decide, C2_sanitize_idempotent_on_untruncated "Test: Video!" (by decide)⟩

/-- C7: the sanitizer's output never exceeds 100 characters, every output
character is in the allowed set {A-Z, a-z, 0-9, hyphen, underscore, period,
space}, and the output is exactly the underscore-replacement of the input,
whitespace-collapsed and truncated to 100. -/
theorem C7_sanitize_bounded_and_allowed (s : String) :
    (get_safe_filename s).length ≤ 100 ∧
    (∀ c ∈ (get_safe_filename s).data, isSafeChar c = true) ∧
    (get_safe_filename s).data = (collapse (replaceUnsafe s.data)).take 100 := by
  refine ⟨?_, ?_, rfl⟩
  · show (sanitizeChars s.data).length ≤ 100
    unfold sanitizeChars
    rw [List.length_take]
    exact min_le_left _ _
  · intro c hc
    exact sanitizeChars_safe s.data c hc

/-- C7 witness: on the spec's scenario title the output is short enough and
the underscore it contains is an allowed character. -/
theorem C7_sanitize_bounded_and_allowed_witness :
    (get_safe_filename "Test: Video!").length ≤ 100 ∧ isSafeChar '_' = true :=
  ⟨(C7_sanitize_bounded_and_allowed "Test: Video!").1,
    (C7_sanitize_bounded_and_allowed "Test: Video!").2.1 '_' (by decide)⟩

/-- C4 counterexample: a regular file named `.old` with age 100 far beyond
`maxFileAge = 10` survives the sweep, because `glob("*")` never matches a
name with a leading dot — the cycle does not delete exactly the over-age
regular files. -/
theorem C4_sweeper_cex :
    (⟨".old", true, 0⟩ : FsFile).isFile = true ∧
    (100 : Int) - (⟨".old", true, 0⟩ : FsFile).ctime > 10 ∧
    cleanup_old_files 100 10 (some [⟨".old", true, 0⟩]) =
      some [⟨".old", true, 0⟩] := by
  decide

/-- C4 (amended): one sweeper cycle deletes exactly the glob-visible (name
not starting with a dot) regular files whose age strictly exceeds
`maxFileAge`, leaves every other entry untouched, is stable across repeated
cycles at the same instant, and is a no-op (not an error) when the storage
directory does not exist. -/
theorem C4_sweeper_deletes_exactly_old_visible (now maxAge : Int)
    (d : List FsFile) :
    cleanup_old_files now maxAge none = none ∧
    cleanup_old_files now maxAge (some d) =
      some (d.filter (fun f => !sweptAt now maxAge f)) ∧
    (∀ f : FsFile, sweptAt now maxAge f = true ↔
      (¬ pyStartsWith f.name "." ∧ f.isFile = true ∧ now - f.ctime > maxAge)) ∧
    (∀ f : FsFile, f ∈ d.filter (fun f => !sweptAt now maxAge f) ↔
      f ∈ d ∧ sweptAt now maxAge f = false) ∧
    cleanup_old_files now maxAge (cleanup_old_files now maxAge (some d)) =
      cleanup_old_files now maxAge (some d) := by
  refine ⟨rfl, rfl, ?_, ?_, ?_⟩
  · intro f
    unfold sweptAt
    constructor
    · intro h
      simp only [Bool.and_eq_true, Bool.not_eq_true', decide_eq_true_eq] at h
      exact ⟨by simp [h.1.1], h.1.2, by omega⟩
    · intro ⟨h1, h2, h3⟩
      simp only [Bool.and_eq_true, Bool.not_eq_true', decide_eq_true_eq]
      exact ⟨⟨by simpa using h1, h2⟩, by omega⟩
  · intro f
    rw [List.mem_filter]
    simp [Bool.not_eq_true']
  · simp only [cleanup_old_files, List.filter_filter]
    congr 1
    apply List.filter_congr
    intro f _
    cases sweptAt now maxAge f <;> rfl

/-- C4 witness: on a directory with a fresh file and an over-age file, one
cycle removes exactly the over-age one, and a missing directory is a no-op. -/
theorem C4_sweeper_deletes_exactly_old_visible_witness :
    cleanup_old_files 100 10 none = none ∧
    cleanup_old_files 100 10 (some [⟨"a.mp4", true, 0⟩, ⟨"b.mp4", true, 95⟩]) =
      some [⟨"b.mp4", true, 95⟩] := by
  refine ⟨(C4_sweeper_deletes_exactly_old_visible 100 10 []).1, ?_⟩
  rw [(C4_sweeper_deletes_exactly_old_visible 100 10
    [⟨"a.mp4", true, 0⟩, ⟨"b.mp4", true, 95⟩]).2.1]
  decide

/-- C1 counterexample: a request with an empty URL from a fresh client is
answered with the client-input error, yet the rate limiter has run — the
client's rate-limit state now records the request's timestamp; and for a
client already at its limit, the same empty-URL request gets the rate-limit
error instead of the input error. So the URL gate does not precede the rate
limiter and the rate-limit state is touched. -/
theorem C1_gate_order_cex :
    (download_video ⟨10, 60, 3600⟩ "c" 5 [] (some (some ""))
        (.ok ⟨some (some 120), "T", "U"⟩) (fun _ _ => .ok "f")
        (fun _ => none)).1 = .noUrl ∧
    (download_video ⟨10, 60, 3600⟩ "c" 5 [] (some (some ""))
        (.ok ⟨some (some 120), "T", "U"⟩) (fun _ _ => .ok "f")
        (fun _ => none)).2 = [("c", [5])] ∧
    (download_video ⟨1, 60, 3600⟩ "c" 100 [("c", [90])] (some (some ""))
        (.ok ⟨some (some 120), "T", "U"⟩) (fun _ _ => .ok "f")
        (fun _ => none)).1 = .rateLimited := by
  refine ⟨?_, ?_, ?_⟩ <;> decide

/-- C1 (amended): the gates run with the rate limiter FIRST: every request
consults `check_rate_limit` and stores its updated map (so an empty-URL or
bad-scheme request still touches the client's rate-limit state), a rejected
client receives the rate-limit error regardless of the URL, and only an
admitted request reaches the empty-URL and scheme checks, which then reject
with the client input errors. -/
theorem C1_rate_limit_gate_first (cfg : Config) (client : String) (now : Int)
    (st : RateState) (body : ReqBody) (probe : Except String ProbeInfo)
    (fetch : String → String → Except String String)
    (fileSize : String → Option Int) :
    ((check_rate_limit cfg.maxRequests cfg.window client now st).1 = false →
      download_video cfg client now st body probe fetch fileSize =
        (.rateLimited, (check_rate_limit cfg.maxRequests cfg.window client now st).2)) ∧
    (download_video cfg client now st body probe fetch fileSize).2 =
      (check_rate_limit cfg.maxRequests cfg.window client now st).2 ∧
    (∀ url, body = some (some url) →
      (check_rate_limit cfg.maxRequests cfg.window client now st).1 = true →
      (url = "" →
        (download_video cfg client now st body probe fetch fileSize).1 = .noUrl) ∧
      (¬ url = "" →
        (pyStartsWith url "http://" || pyStartsWith url "https://") = false →
        (download_video cfg client now st body probe fetch fileSize).1 =
          .invalidUrlFormat)) := by
  refine ⟨download_video_rateLimited cfg client now st body probe fetch fileSize,
    download_video_state cfg client now st body probe fetch fileSize, ?_⟩
  intro url hbody hadm
  subst hbody
  constructor
  · intro hemp
    simp [download_video, hadm, hemp]
  · intro hemp hsch
    simp [download_video, hadm, hemp, hsch]

/-- C1 witness: an admitted request with URL `"ftp://x"` is rejected as an
invalid URL format, and its rate-limit state is the limiter's update. -/
theorem C1_rate_limit_gate_first_witness :
    (download_video ⟨10, 60, 3600⟩ "c" 5 [] (some (some "ftp://x"))
        (.ok ⟨some (some 120), "T", "U"⟩) (fun _ _ => .ok "f")
        (fun _ => none)).1 = .invalidUrlFormat ∧
    (download_video ⟨10, 60, 3600⟩ "c" 5 [] (some (some "ftp://x"))
        (.ok ⟨some (some 120), "T", "U"⟩) (fun _ _ => .ok "f")
        (fun _ => none)).2 = (check_rate_limit 10 60 "c" 5 []).2 := by
  have h := C1_rate_limit_gate_first ⟨10, 60, 3600⟩ "c" 5 [] (some (some "ftp://x"))
    (.ok ⟨some (some 120), "T", "U"⟩) (fun _ _ => .ok "f") (fun _ => none)
  exact ⟨((h.2.2 "ftp://x" rfl (by decide)).2 (by decide) (by decide)), h.2.1⟩

/-- C5: past the earlier gates, the duration gate rejects if and only if the
probed duration is present, non-zero and strictly above `maxDurationSeconds`;
on rejection the response carries both the configured limit and the observed
duration, with status 400, and the fetch collaborator is never consulted
(the outcome is the same for every fetch and every file-size oracle); a
missing or zero duration passes the gate. -/
theorem C5_duration_gate (cfg : Config) (client : String) (now : Int)
    (st : RateState) (url : String) (info : ProbeInfo)
    (fetch : String → String → Except String String)
    (fileSize : String → Option Int)
    (hadm : (check_rate_limit cfg.maxRequests cfg.window client now st).1 = true)
    (hurl : (pyStartsWith url "http://" || pyStartsWith url "https://") = true) :
    ((download_video cfg client now st (some (some url)) (.ok info)
        fetch fileSize).1 =
        .durationExceeded cfg.maxDuration (getDuration info) ↔
      ∃ n, getDuration info = some n ∧ n ≠ 0 ∧ n > cfg.maxDuration) ∧
    (durationRejects (getDuration info) cfg.maxDuration = true →
      ∀ (fetch2 : String → String → Except String String)
        (fileSize2 : String → Option Int),
        download_video cfg client now st (some (some url)) (.ok info)
            fetch2 fileSize2 =
          (.durationExceeded cfg.maxDuration (getDuration info),
            (check_rate_limit cfg.maxRequests cfg.window client now st).2) ∧
        statusOf (download_video cfg client now st (some (some url)) (.ok info)
          fetch2 fileSize2).1 = 400) ∧
    ((getDuration info = none ∨ getDuration info = some 0) →
      durationRejects (getDuration info) cfg.maxDuration = false ∧
      (download_video cfg client now st (some (some url)) (.ok info)
        fetch fileSize).1 ≠
        .durationExceeded cfg.maxDuration (getDuration info)) := by
  have hrun := download_video_run cfg client now st url (.ok info) fetch fileSize
    hadm hurl
  refine ⟨?_, ?_, ?_⟩
  · rw [hrun, ← durationRejects_iff]
    by_cases hdur : durationRejects (getDuration info) cfg.maxDuration
    · simp [hdur]
    · simp only [hdur, Bool.false_eq_true, if_false, iff_false]
      cases hf : fetch url (get_safe_filename info.title) <;> simp [hf]
  · intro hdur fetch2 fileSize2
    have hrun2 := download_video_run cfg client now st url (.ok info) fetch2
      fileSize2 hadm hurl
    rw [hrun2]
    simp [hdur, statusOf]
  · intro hd
    have hdur : durationRejects (getDuration info) cfg.maxDuration = false := by
      rcases hd with h | h <;> simp [h, durationRejects]
    refine ⟨hdur, ?_⟩
    rw [hrun]
    simp only [hdur, Bool.false_eq_true, if_false]
    cases hf : fetch url (get_safe_filename info.title) <;> simp [hf]

/-- C5 witness: the spec's scenario — probe duration 4000 against the limit
3600 — yields the 400 policy error echoing both values, for any fetch. -/
theorem C5_duration_gate_witness :
    download_video ⟨10, 60, 3600⟩ "c" 5 [] (some (some "https://x"))
        (.ok ⟨some (some 4000), "T", "U"⟩) (fun _ _ => .ok "f") (fun _ => none) =
      (.durationExceeded 3600 (some 4000), (check_rate_limit 10 60 "c" 5 []).2) ∧
    ∃ n, getDuration ⟨some (some 4000), "T", "U"⟩ = some n ∧ n ≠ 0 ∧ n > 3600 := by
  have h := C5_duration_gate ⟨10, 60, 3600⟩ "c" 5 [] "https://x"
    ⟨some (some 4000), "T", "U"⟩ (fun _ _ => .ok "f") (fun _ => none)
    (by decide) (by decide)
  refine ⟨((h.2.1 (by decide)) (fun _ _ => .ok "f") (fun _ => none)).1, ?_⟩
  exact h.1.mp (by rw [((h.2.1 (by decide)) (fun _ _ => .ok "f")
    (fun _ => none)).1])

/-- C8: both collaborator failures are reclassified at the boundary into
constant bodies — a probe failure becomes the fixed 400 client-input body
and a post-validation fetch failure becomes the fixed 500 download-error
body — for every raw error value, so no lower-level failure detail reaches
the client. -/
theorem C8_collaborator_failures_reclassified (cfg : Config) (client : String)
    (now : Int) (st : RateState) (url : String)
    (fetch : String → String → Except String String)
    (fileSize : String → Option Int)
    (hadm : (check_rate_limit cfg.maxRequests cfg.window client now st).1 = true)
    (hurl : (pyStartsWith url "http://" || pyStartsWith url "https://") = true) :
    (∀ e : String,
      download_video cfg client now st (some (some url)) (.error e)
          fetch fileSize =
        (.probeFailed,
          (check_rate_limit cfg.maxRequests cfg.window client now st).2) ∧
      statusOf .probeFailed = 400) ∧
    (∀ (info : ProbeInfo) (e : String),
      durationRejects (getDuration info) cfg.maxDuration = false →
      fetch url (get_safe_filename info.title) = .error e →
      download_video cfg client now st (some (some url)) (.ok info)
          fetch fileSize =
        (.fetchFailed,
          (check_rate_limit cfg.maxRequests cfg.window client now st).2) ∧
      statusOf .fetchFailed = 500) := by
  constructor
  · intro e
    rw [download_video_run cfg client now st url (.error e) fetch fileSize
      hadm hurl]
    exact ⟨rfl, rfl⟩
  · intro info e hdur hf
    rw [download_video_run cfg client now st url (.ok info) fetch fileSize
      hadm hurl]
    simp [hdur, hf, statusOf]

/-- C8 witness: two different raw probe errors produce the same constant 400
body, and a fetch error after validation produces the constant 500 body. -/
theorem C8_collaborator_failures_reclassified_witness :
    (download_video ⟨10, 60, 3600⟩ "c" 5 [] (some (some "https://x"))
        (.error "socket timeout") (fun _ _ => .ok "f") (fun _ => none)).1 =
      .probeFailed ∧
    (download_video ⟨10, 60, 3600⟩ "c" 5 [] (some (some "https://x"))
        (.error "DNS failure") (fun _ _ => .ok "f") (fun _ => none)).1 =
      .probeFailed ∧
    (download_video ⟨10, 60, 3600⟩ "c" 5 [] (some (some "https://x"))
        (.ok ⟨some (some 120), "T", "U"⟩) (fun _ _ => .error "disk full")
        (fun _ => none)).1 = .fetchFailed := by
  have h := C8_collaborator_failures_reclassified ⟨10, 60, 3600⟩ "c" 5 []
    "https://x" (fun _ _ => .ok "f") (fun _ => none) (by decide) (by decide)
  have h2 := C8_collaborator_failures_reclassified ⟨10, 60, 3600⟩ "c" 5 []
    "https://x" (fun _ _ => .error "disk full") (fun _ => none)
    (by decide) (by decide)
  refine ⟨?_, ?_, ?_⟩
  · rw [(h.1 "socket timeout").1]
  · rw [(h.1 "DNS failure").1]
  · rw [(h2.2 ⟨some (some 120), "T", "U"⟩ "disk full" (by decide) rfl).1]

/-- C10: when the fetch succeeds but the resolved file is absent at the
moment its size is read, the endpoint still returns the 200 success body
with `file_size_bytes` null. -/
theorem C10_success_with_missing_file (cfg : Config) (client : String)
    (now : Int) (st : RateState) (url : String) (info : ProbeInfo)
    (fetch : String → String → Except String String)
    (fileSize : String → Option Int) (filename : String)
    (hadm : (check_rate_limit cfg.maxRequests cfg.window client now st).1 = true)
    (hurl : (pyStartsWith url "http://" || pyStartsWith url "https://") = true)
    (hdur : durationRejects (getDuration info) cfg.maxDuration = false)
    (hf : fetch url (get_safe_filename info.title) = .ok filename)
    (hsize : fileSize filename = none) :
    download_video cfg client now st (some (some url)) (.ok info)
        fetch fileSize =
      (.success info.title info.uploader (basename filename)
        (getDuration info) none,
        (check_rate_limit cfg.maxRequests cfg.window client now st).2) ∧
    statusOf (.success info.title info.uploader (basename filename)
      (getDuration info) none) = 200 := by
  rw [download_video_run cfg client now st url (.ok info) fetch fileSize
    hadm hurl]
  simp [hdur, hf, hsize, statusOf]

/-- C10 witness: a successful fetch whose output file does not exist still
returns the 200 success body with a null size. -/
theorem C10_success_with_missing_file_witness :
    download_video ⟨10, 60, 3600⟩ "c" 5 [] (some (some "https://x"))
        (.ok ⟨some (some 120), "T", "U"⟩) (fun _ _ => .ok "/data/T.mp4")
        (fun _ => none) =
      (.success "T" "U" "T.mp4" (some 120) none,
        (check_rate_limit 10 60 "c" 5 []).2) := by
  have h := C10_success_with_missing_file ⟨10, 60, 3600⟩ "c" 5 [] "https://x"
    ⟨some (some 120), "T", "U"⟩ (fun _ _ => .ok "/data/T.mp4") (fun _ => none)
    "/data/T.mp4" (by decide) (by decide) (by decide) rfl rfl
  rw [h.1]
  rfl

end YtubeDDD
